import Mathlib

/-!
# Verification development for `pods/main.go`

The program resolves a cluster configuration (`GetClientConfig`), builds a
clientset (`GetClientset`), creates one fixed pod (`getPodObject`) and lists
the pods of namespace `default`, printing each with `PrettyString`.

Embedding.  Every call that leaves the program (client-go, `os.Getenv`,
`encoding/json` on a pod) is a field of `World`; every observable effect (a
write to standard output, a call to the cluster or to the environment) is
appended to an event trace, so that "is never called" and "happens before"
are statements about that trace.  The standard-library routines whose behaviour the claims
depend on (`fmt` formatting, `filepath.Join`, `strings.Repeat`) are modelled
as executable functions.  Go strings are taken to be valid UTF-8 and are
processed by code point.
-/

namespace Pods

/-! ## Values that cross the library boundary -/

/-- A Go `error` value, observed through its `Error()` text.  None of the
errors this program handles implements `fmt.Formatter`, so the verbs `%v`,
`%+v` and `%s` print exactly this text. -/
structure GoError where
  Error : String
deriving DecidableEq, Repr

/-- How a library call that runs methods of the value it is given can end: it
returns, or a panic raised in such a method reaches the caller.  The panic
value is observed through its text.  A method that never finishes gives the
call no end at all; such values are left out, and nothing is stated on them. -/
inductive Outcome (α : Type) where
  | returns (a : α)
  | panics (v : GoError)

/-- An `interface{}` value as `PrettyString` observes it: how
`json.MarshalIndent(in, pfx, indent)` ends for it and how printing it under
`%+v` ends.  `encoding/json` recovers only its own errors and raises again a
panic that comes out of the value's `MarshalJSON` or `MarshalText`; `fmt`
prints a panic that comes out of `String`, `Error` or `Format`, and raises it
again when printing the panic value panics in turn. -/
structure GoValue where
  marshalIndent : String → String → Outcome (Except GoError String)
  plusV : Outcome String

/-- A `core.Pod` value as `encoding/json` and `fmt` see it.  Both calls return
for it: the encoders of its field types do not panic, and passed by value it
has no `String`, `Error` or `Format` method. -/
structure PodValue where
  marshalIndent : String → String → Except GoError String
  plusV : String

/-- A pod value passed as `interface{}`. -/
def PodValue.toGoValue (p : PodValue) : GoValue :=
  { marshalIndent := fun pfx indent => .returns (p.marshalIndent pfx indent)
    plusV := .returns p.plusV }

/-- Operands handed to the `fmt` routines by this program: an error, an
interface value whose `%+v` form is the given text, a string. -/
inductive FmtArg where
  | err (e : GoError)
  | val (plusV : String)
  | str (s : String)

/-! ## `fmt`: the formatting loop `doPrintf`, `doPrintln`

`none` means that the format leaves the modelled fragment (an operand printed
under a verb or flag whose rendering depends on the operand's dynamic type, or
surplus operands); every call made by the program is shown to stay inside it. -/

/-- The flag part of `fmt.fmt`: the five flags and whether a width and a
precision were given. -/
structure FmtFlags where
  plus : Bool
  sharp : Bool
  minus : Bool
  space : Bool
  zero : Bool
  widPresent : Bool
  precPresent : Bool
deriving DecidableEq, Repr

/-- The state after `clearflags()`. -/
def FmtFlags.clear : FmtFlags :=
  { plus := false, sharp := false, minus := false, space := false, zero := false,
    widPresent := false, precPresent := false }

/-- What `printArg(arg, verb)` writes.  Strings and errors under `%v`/`%s`
print their text (the plus flag changes nothing for them); an interface value
is only known under `%+v`. -/
def printArg (a : FmtArg) (f : FmtFlags) (verb : Char) : Option String :=
  if f.sharp || f.minus || f.space || f.zero || f.widPresent || f.precPresent then none
  else
    match a with
    | .str s => if verb = 'v' ∨ verb = 's' then some s else none
    | .err e => if verb = 'v' ∨ verb = 's' then some e.Error else none
    | .val plusV => if verb = 'v' ∧ f.plus then some plusV else none

/-- The bound `tooLarge` of `fmt`: numbers beyond a million are rejected. -/
def tooLarge (x : Nat) : Bool := decide (x > 1000000)

/-- The digit loop of `parsenum`: the number read, whether any digit was read,
and the rest of the input.  On overflow it gives up and skips to the end of
its range. -/
def parsenumLoop : List Char → Nat → Bool → Nat × Bool × List Char
  | [], num, isnum => (num, isnum, [])
  | c :: cs, num, isnum =>
    if '0' ≤ c ∧ c ≤ '9' then
      if tooLarge num then (0, false, [])
      else parsenumLoop cs (num * 10 + (c.toNat - '0'.toNat)) true
    else (num, isnum, c :: cs)

/-- The function `parsenum(s, start, end)` on the range `s`. -/
def parsenum (s : List Char) : Nat × Bool × List Char :=
  parsenumLoop s 0 false

/-- The function `parseArgNumber(format)` for a format that starts with `[`:
the zero-based index, the number of characters to skip, and whether the
bracket held a number. -/
def parseArgNumber (format : List Char) : Int × Nat × Bool :=
  if format.length < 3 then (0, 1, false)
  else
    match (format.drop 1).indexOf? ']' with
    | none => (0, 1, false)
    | some k =>
      -- the closing bracket is at position k + 1
      match parsenum ((format.drop 1).take k) with
      | (width, ok, rest) =>
        if !ok || !rest.isEmpty then (0, k + 2, false)
        else ((width : Int) - 1, k + 2, true)

/-- Result of `argNumber`. -/
structure ArgNum where
  argNum : Nat
  rest : List Char
  found : Bool
  good : Bool
  reordered : Bool

/-- The method `argNumber`: an explicit operand index `[n]`, when one is
there.  `good` and `reordered` are the fields `goodArgNum` and `reordered`. -/
def argNumber (argNum : Nat) (s : List Char) (numArgs : Nat) (good reordered : Bool) : ArgNum :=
  match s with
  | '[' :: _ =>
    match parseArgNumber s with
    | (index, wid, ok) =>
      if ok ∧ 0 ≤ index ∧ index < (numArgs : Int) then
        { argNum := index.toNat, rest := s.drop wid, found := true, good := good,
          reordered := true }
      else
        { argNum := argNum, rest := s.drop wid, found := ok, good := false, reordered := true }
  | _ => { argNum := argNum, rest := s, found := false, good := good, reordered := reordered }

/-- The function `intFromArg` for a `*` width or precision: none of the
operands of this program is an integer, so the operand (if there is one) is
consumed and no number results.  The kind of an interface value is not known. -/
def intFromArg (args : List FmtArg) (argNum : Nat) : Option Nat :=
  match args.get? argNum with
  | none => some argNum
  | some (.val _) => none
  | some _ => some (argNum + 1)

/-- Outcome of the flag loop. -/
inductive FlagScan where
  | fast (f : FmtFlags) (verb : Char) (rest : List Char)
  | slow (f : FmtFlags) (rest : List Char)

/-- The loop `simpleFormat`: read flags; a lower-case verb with an operand
available takes the fast path. -/
def scanFlags (hasArg : Bool) : List Char → FmtFlags → FlagScan
  | [], f => .slow f []
  | c :: cs, f =>
    if c = '#' then scanFlags hasArg cs { f with sharp := true }
    else if c = '0' then scanFlags hasArg cs { f with zero := !f.minus }
    else if c = '+' then scanFlags hasArg cs { f with plus := true }
    else if c = '-' then scanFlags hasArg cs { f with minus := true, zero := false }
    else if c = ' ' then scanFlags hasArg cs { f with space := true }
    else if ('a' ≤ c ∧ c ≤ 'z') ∧ hasArg = true then .fast f c cs
    else .slow f (c :: cs)

/-- State after one verb was processed on the general path. -/
structure VerbStep where
  out : List Char
  rest : List Char
  argNum : Nat
  reordered : Bool
  stop : Bool

/-- The width part: `*` or a number.  The last component is `afterIndex`. -/
def parseWidth (f : FmtFlags) (a : ArgNum) (args : List FmtArg) :
    Option (List Char × FmtFlags × ArgNum × Bool) :=
  match a.rest with
  | '*' :: s1 =>
    (intFromArg args a.argNum).map fun n =>
      ("%!(BADWIDTH)".toList, { f with widPresent := false },
        { a with argNum := n, rest := s1 }, false)
  | s =>
    some ([], { f with widPresent := (parsenum s).2.1 },
      { a with rest := (parsenum s).2.2, good := a.good && !(a.found && (parsenum s).2.1) },
      a.found)

/-- The precision part once the `.` and an operand index were read: `*` or a
number (a missing number counts as precision zero). -/
def precisionAfterDot (f : FmtFlags) (b : ArgNum) (args : List FmtArg) :
    Option (List Char × FmtFlags × ArgNum × Bool) :=
  match b.rest with
  | '*' :: s2 =>
    (intFromArg args b.argNum).map fun n =>
      ("%!(BADPREC)".toList, { f with precPresent := false },
        { b with argNum := n, rest := s2 }, false)
  | s =>
    some ([], { f with precPresent := true }, { b with rest := (parsenum s).2.2 }, b.found)

/-- The precision part, entered on a `.`; an operand index right before the
`.` spoils the operand number. -/
def parsePrecision (f : FmtFlags) (a : ArgNum) (afterIndex : Bool) (args : List FmtArg) :
    Option (List Char × FmtFlags × ArgNum × Bool) :=
  match a.rest with
  | '.' :: s1 =>
    precisionAfterDot f (argNumber a.argNum s1 args.length (a.good && !afterIndex) a.reordered)
      args
  | _ => some ([], f, a, afterIndex)

/-- The verb itself, once flags, width, precision and operand index are read:
`out` is what the width and precision parts wrote. -/
def applyVerb (out : List Char) (f : FmtFlags) (a : ArgNum) (args : List FmtArg) :
    Option VerbStep :=
  match a.rest with
  | [] =>
    some { out := out ++ "%!(NOVERB)".toList, rest := [], argNum := a.argNum,
           reordered := a.reordered, stop := true }
  | verb :: s4 =>
    if verb = '%' then
      -- percent does not absorb operands and ignores width and precision
      some { out := out ++ ['%'], rest := s4, argNum := a.argNum,
             reordered := a.reordered, stop := false }
    else if a.good = false then
      some { out := out ++ ("%!".toList ++ verb :: "(BADINDEX)".toList), rest := s4,
             argNum := a.argNum, reordered := a.reordered, stop := false }
    else
      match args.get? a.argNum with
      | none =>
        -- no operand left over to print for the current verb
        some { out := out ++ ("%!".toList ++ verb :: "(MISSING)".toList), rest := s4,
               argNum := a.argNum, reordered := a.reordered, stop := false }
      | some arg =>
        (printArg arg f verb).map fun txt =>
          { out := out ++ txt.toList, rest := s4, argNum := a.argNum + 1,
            reordered := a.reordered, stop := false }

/-- One verb on the general path of `doPrintf`, from the explicit operand
index to the verb itself. -/
def slowVerb (f : FmtFlags) (s : List Char) (args : List FmtArg) (argNum : Nat)
    (reordered : Bool) : Option VerbStep := do
  let (o1, f1, a1, after1) ← parseWidth f (argNumber argNum s args.length true reordered) args
  let (o2, f2, a2, after2) ← parsePrecision f1 a1 after1 args
  let a3 := if after2 then a2 else argNumber a2.argNum a2.rest args.length a2.good a2.reordered
  applyVerb (o1 ++ o2) f2 a3 args

/-- The check after the format is used up: operands left over would be
reported as `%!(EXTRA ...)` with their type names, which are not modelled. -/
def finish (args : List FmtArg) (argNum : Nat) (reordered : Bool) : Option (List Char) :=
  if !reordered && decide (argNum < args.length) then none else some []

/-- The loop `formatLoop` of `doPrintf`; every round uses up at least one
character of the format, so `fuel` above its length is never exhausted. -/
def formatLoop : Nat → List Char → List FmtArg → Nat → Bool → Option (List Char)
  | 0, _, _, _, _ => none
  | _ + 1, [], args, argNum, reordered => finish args argNum reordered
  | fuel + 1, c :: cs, args, argNum, reordered =>
    if c ≠ '%' then (formatLoop fuel cs args argNum reordered).map (c :: ·)
    else
      match scanFlags (decide (argNum < args.length)) cs FmtFlags.clear with
      | .fast f verb rest => do
        let arg ← args.get? argNum
        let txt ← printArg arg f verb
        let more ← formatLoop fuel rest args (argNum + 1) reordered
        pure (txt.toList ++ more)
      | .slow f rest => do
        let r ← slowVerb f rest args argNum reordered
        if r.stop then
          let more ← finish args r.argNum r.reordered
          pure (r.out ++ more)
        else
          let more ← formatLoop fuel r.rest args r.argNum r.reordered
          pure (r.out ++ more)

/-- The method `doPrintf(format, a)`: the text written. -/
def doPrintf (format : String) (args : List FmtArg) : Option String :=
  (formatLoop (format.length + 1) format.toList args 0 false).map String.mk

/-- The function `fmt.Sprintf`. -/
def Sprintf (format : String) (args : List FmtArg) : Option String :=
  doPrintf format args

/-- The function `fmt.Errorf`: an error whose text is the formatted string. -/
def Errorf (format : String) (args : List FmtArg) : Option GoError :=
  (doPrintf format args).map GoError.mk

/-- The method `doPrintln`: operands under `%v`, separated by blanks, then a
newline. -/
def doPrintln : List FmtArg → Option String
  | [] => some "\n"
  | [a] => (printArg a FmtFlags.clear 'v').map (· ++ "\n")
  | a :: b :: rest => do
    let txt ← printArg a FmtFlags.clear 'v'
    let more ← doPrintln (b :: rest)
    pure (txt ++ " " ++ more)

/-! ## `strings` and `path/filepath` (Unix) -/

/-- The function `strings.Repeat(s, count)`. -/
def stringsRepeat (s : String) (count : Nat) : String :=
  String.join (List.replicate count s)

/-- The function `strings.Join(elems, sep)`. -/
def stringsJoin (elems : List String) (sep : String) : String :=
  sep.intercalate elems

/-- The loop inside the `..` case of `Clean`, on the reversed output buffer:
`c` is the character at the position just given up, and positions are given
up until that character is a separator or `dotdot` is reached. -/
def backtrackLoop (dotdot : Nat) : List Char → Char → List Char
  | [], _ => []
  | d :: buf, c =>
    if (d :: buf).length > dotdot ∧ c ≠ '/' then backtrackLoop dotdot buf d else d :: buf

/-- The statement `out.w--` followed by that loop. -/
def backtrack (dotdot : Nat) : List Char → List Char
  | [] => []
  | c :: buf => backtrackLoop dotdot buf c

/-- The main loop of `filepath.Clean`: `path` is the input from index `r` on,
`out` the output buffer in reverse (so `out.length` is `out.w`).  Every round
advances `r`, so `fuel` above the length of `path` is never exhausted. -/
def cleanLoop (rooted : Bool) : Nat → List Char → List Char → Nat → List Char
  | 0, _, out, _ => out
  | _ + 1, [], out, _ => out
  | fuel + 1, c :: rest, out, dotdot =>
    if c = '/' then
      -- empty path element
      cleanLoop rooted fuel rest out dotdot
    else if c = '.' ∧ (rest = [] ∨ rest.head? = some '/') then
      -- . element
      cleanLoop rooted fuel rest out dotdot
    else if c = '.' ∧ rest.head? = some '.' ∧
        (rest.tail = [] ∨ rest.tail.head? = some '/') then
      -- .. element: remove to last separator
      if out.length > dotdot then
        cleanLoop rooted fuel rest.tail (backtrack dotdot out) dotdot
      else if !rooted then
        let out1 := if out.length > 0 then '/' :: out else out
        let out2 := '.' :: '.' :: out1
        cleanLoop rooted fuel rest.tail out2 out2.length
      else
        cleanLoop rooted fuel rest.tail out dotdot
    else
      -- real path element: add slash if needed, copy element
      let out1 :=
        if (rooted && out.length != 1) || (!rooted && out.length != 0) then '/' :: out else out
      let elem := (c :: rest).takeWhile (· ≠ '/')
      cleanLoop rooted fuel ((c :: rest).dropWhile (· ≠ '/')) (elem.reverse ++ out1) dotdot

/-- The function `filepath.Clean` (no volume names on Unix). -/
def filepathClean (path : String) : String :=
  if path = "" then "."
  else
    let p := path.toList
    let rooted := p.head? = some '/'
    let out :=
      if rooted then cleanLoop true (p.length + 1) p.tail ['/'] 1
      else cleanLoop false (p.length + 1) p [] 0
    if out.length = 0 then "." else String.mk out.reverse

/-- The function `filepath.Join`: empty leading elements are skipped, the rest
is joined with the separator and cleaned; all empty gives the empty string. -/
def filepathJoin : List String → String
  | [] => ""
  | e :: rest => if e ≠ "" then filepathClean (stringsJoin (e :: rest) "/") else filepathJoin rest

/-- A path element that `Clean` keeps: not empty, no separator, neither `.`
nor `..`. -/
def isName (s : List Char) : Bool :=
  decide (s ≠ [] ∧ '/' ∉ s ∧ s ≠ ['.'] ∧ s ≠ ['.', '.'])

/-- The names joined by single separators: `n1/n2/.../nk`. -/
def joinNames : List (List Char) → List Char
  | [] => []
  | [n] => n
  | n :: m :: rest => n ++ '/' :: joinNames (m :: rest)

/-- The rooted path `/n1/n2/.../nk`. -/
def rootedPath (names : List (List Char)) : String :=
  String.mk ('/' :: joinNames names)

/-! ## The data model: pods -/

/-- The type `core.PullPolicy` is a string type. -/
abbrev PullPolicy := String

/-- The constant `core.PullIfNotPresent`. -/
def PullIfNotPresent : PullPolicy := "IfNotPresent"

/-- The fields of `core.Container` that the program sets; all others keep
their zero value. -/
structure Container where
  Name : String
  Image : String
  Command : List String
  ImagePullPolicy : PullPolicy
deriving DecidableEq, Repr

/-- The fields of `metav1.ObjectMeta` that the program uses.  `Labels` is a Go
map, given as the list of its entries. -/
structure ObjectMeta where
  Name : String
  Namespace : String
  Labels : List (String × String)
deriving DecidableEq, Repr

/-- The type `core.PodSpec`, restricted to `Containers`. -/
structure PodSpec where
  Containers : List Container
deriving DecidableEq, Repr

/-- The type `core.Pod`. -/
structure Pod where
  ObjectMeta : ObjectMeta
  Spec : PodSpec
deriving DecidableEq, Repr

/-- Field promotion: `pod.Name` is `pod.ObjectMeta.Name`. -/
def Pod.Name (p : Pod) : String := p.ObjectMeta.Name

/-- Field promotion: `pod.Namespace` is `pod.ObjectMeta.Namespace`. -/
def Pod.Namespace (p : Pod) : String := p.ObjectMeta.Namespace

/-- The zero value `core.Pod{}`. -/
def Pod.zero : Pod :=
  { ObjectMeta := { Name := "", Namespace := "", Labels := [] }, Spec := { Containers := [] } }

/-- The type `core.PodList`, restricted to `Items`. -/
structure PodList where
  Items : List Pod
deriving DecidableEq, Repr

/-- The type `metav1.ListOptions`, restricted to its two selectors. -/
structure ListOptions where
  LabelSelector : String
  FieldSelector : String
deriving DecidableEq, Repr

/-- The zero value `metav1.ListOptions{}`. -/
def ListOptions.zero : ListOptions := { LabelSelector := "", FieldSelector := "" }

/-! ## The outside world and the trace of a run -/

/-- Everything outside the program.  `Cfg` stands for `*rest.Config` and `Cs`
for `*kubernetes.Clientset`; the program never looks inside either.  Each
library function is called at most once per run with given arguments, so a
function of the arguments covers every behaviour of the environment.

`Create` and `List` are the generated typed clients of client-go: they
allocate the result (`result = &v1.Pod{}`, `result = &v1.PodList{}`) before
the request is sent and return that pointer together with the error, so the
result is never nil, also when the error is not nil. -/
structure World (Cfg Cs : Type) where
  InClusterConfig : Except GoError Cfg
  Getenv : String → String
  BuildConfigFromFlags : String → String → Except GoError Cfg
  NewForConfig : Cfg → Except GoError Cs
  Create : Cs → String → Pod → Pod × Option GoError
  List : Cs → String → ListOptions → PodList × Option GoError
  podValue : Pod → PodValue

/-- What a run does that can be observed from outside, in order. -/
inductive Event (Cfg : Type) where
  | stdout (s : String)
  | inClusterConfig
  | getenv (key : String)
  | buildConfigFromFlags (masterUrl kubeconfigPath : String)
  | newForConfig (c : Cfg)
  | create (ns : String) (pod : Pod)
  | list (ns : String) (opts : ListOptions)
deriving DecidableEq, Repr

/-- An event that is a write to standard output. -/
def Event.isStdout {Cfg : Type} : Event Cfg → Bool
  | .stdout _ => true
  | _ => false

/-- An event that is a request to the cluster API. -/
def Event.isClusterCall {Cfg : Type} : Event Cfg → Bool
  | .create _ _ => true
  | .list _ _ => true
  | _ => false

/-- The text written to standard output by a trace. -/
def stdoutOf {Cfg : Type} : List (Event Cfg) → String
  | [] => ""
  | .stdout s :: t => s ++ stdoutOf t
  | _ :: t => stdoutOf t

/-- A computation with a result and the events it caused; `none` when a
formatting call leaves the modelled fragment of `fmt`. -/
def Prog (E α : Type) : Type := Option (α × List E)

/-- Sequencing: the events of the first part come first. -/
def Prog.bind {E α β : Type} (m : Prog E α) (f : α → Prog E β) : Prog E β :=
  match m with
  | none => none
  | some (a, t) =>
    match f a with
    | none => none
    | some (b, t') => some (b, t ++ t')

instance {E : Type} : Monad (Prog E) where
  pure a := some (a, [])
  bind := Prog.bind

/-- A call to the outside: the event is recorded, the answer handed on. -/
def call {E α : Type} (e : E) (a : α) : Prog E α := some (a, [e])

/-- A pure library computation that may leave the modelled fragment. -/
def lift {E α : Type} (o : Option α) : Prog E α := o.map (fun a => (a, []))

/-- The function `fmt.Printf`. -/
def Printf {Cfg : Type} (format : String) (args : List FmtArg) : Prog (Event Cfg) Unit :=
  (doPrintf format args).map (fun s => ((), [Event.stdout s]))

/-- The function `fmt.Println`. -/
def Println {Cfg : Type} (args : List FmtArg) : Prog (Event Cfg) Unit :=
  (doPrintln args).map (fun s => ((), [Event.stdout s]))

/-- How a run of `main` ends. -/
inductive Exit where
  | returned
  | panicked (v : GoError)
deriving DecidableEq, Repr

/-! ## The program -/

section Program

variable {Cfg Cs : Type}

/-- Source: `GetClientConfig` (main.go, lines 24-38).  Every return of the
function is `config, nil` or `nil, err`, which is the type `Except`. -/
def GetClientConfig (w : World Cfg Cs) : Prog (Event Cfg) (Except GoError Cfg) := do
  let r ← call Event.inClusterConfig w.InClusterConfig
  match r with
  | .ok config => pure (.ok config)
  | .error err =>
    Printf "Unable to create config. Error: %+v" [.err err]
    let err1 := err
    let home ← call (Event.getenv "HOME") (w.Getenv "HOME")
    let kubeconfig := filepathJoin [home, ".kube", "config"]
    let r ← call (Event.buildConfigFromFlags "" kubeconfig) (w.BuildConfigFromFlags "" kubeconfig)
    match r with
    | .ok config => pure (.ok config)
    | .error err =>
      let err ← lift (Errorf
        "InClusterConfig as well as BuildConfigFromFlags Failed. Error in InClusterConfig: %+v\nError in BuildConfigFromFlags: %+v"
        [.err err1, .err err])
      pure (.error err)

/-- Source: `GetClientset` (main.go, lines 44-57). -/
def GetClientset (w : World Cfg Cs) : Prog (Event Cfg) (Except GoError Cs) := do
  let r ← GetClientConfig w
  match r with
  | .error err => pure (.error err)
  | .ok config =>
    let r ← call (Event.newForConfig config) (w.NewForConfig config)
    match r with
    | .error err =>
      let err ← lift (Errorf "Failed creating clientset. Error: %+v" [.err err])
      pure (.error err)
    | .ok clientset => pure (.ok clientset)

/-- Source: `PrettyString` (main.go, lines 60-70).  The function has no
`recover`, so a panic that comes out of `json.MarshalIndent` or out of
`fmt.Sprintf` ends it. -/
def PrettyString (v : GoValue) : Prog (Event Cfg) (Outcome String) :=
  match v.marshalIndent "" "    " with
  | .panics p => pure (.panics p)
  | .returns (.error err) => do
    let err ← lift (Errorf "Unable to marshal, Error: %+v" [.err err])
    -- `err != nil` holds: `fmt.Errorf` never returns nil
    Printf "Unable to marshal, Error: %+v\n" [.err err]
    match v.plusV with
    | .panics p => pure (.panics p)
    | .returns plusV =>
      let s ← lift (Sprintf "%+v" [.val plusV])
      pure (.returns s)
  | .returns (.ok jsonStr) => pure (.returns jsonStr)

/-- Source: `getPodObject` (main.go, lines 105-129). -/
def getPodObject : Pod :=
  { ObjectMeta :=
      { Name := "my-test-pod"
        Namespace := "default"
        Labels := [("app", "demo")] }
    Spec :=
      { Containers :=
          [ { Name := "busybox"
              Image := "busybox"
              ImagePullPolicy := PullIfNotPresent
              Command := ["sleep", "3600"] } ] } }

/-- The body of the loop over `pods.Items` in `main` (lines 94-99), for the
items that remain.  A panic in `PrettyString` ends the loop. -/
def printPods (w : World Cfg Cs) : List Pod → Prog (Event Cfg) (Outcome Unit)
  | [] => pure (.returns ())
  | pod :: rest => do
    Println [.str "Pod Name: ", .str pod.Name]
    let r ← PrettyString (w.podValue pod).toGoValue
    match r with
    | .panics p => pure (.panics p)
    | .returns s =>
      Printf s []
      Println []
      Println [.str (stringsRepeat "*" 80)]
      printPods w rest

/-- Source: `main` (main.go, lines 72-103). -/
def main (w : World Cfg Cs) : Prog (Event Cfg) Exit := do
  let r ← GetClientset w
  match r with
  | .error err => pure (Exit.panicked err)
  | .ok clientset =>
    let podObject := getPodObject
    let (pod, err) ← call (Event.create podObject.Namespace podObject)
      (w.Create clientset podObject.Namespace podObject)
    if err ≠ none then
      -- the error value built here is dropped
      let _ ← lift (Errorf "cannot create pod" [])
    Println [.str "Pod ", .str pod.Name, .str "created successfully..."]
    Println [.str "Listing pods.."]
    let (pods, _) ← call (Event.list "default" ListOptions.zero)
      (w.List clientset "default" ListOptions.zero)
    let r ← printPods w pods.Items
    match r with
    | .panics p => pure (Exit.panicked p)
    | .returns _ =>
      Println [.str "Pods listed"]
      pure Exit.returned

end Program

/-! ## Concrete environments -/

/-- The error `rest.ErrNotInCluster`. -/
def ErrNotInCluster : GoError :=
  ⟨"unable to load in-cluster configuration, KUBERNETES_SERVICE_HOST and KUBERNETES_SERVICE_PORT must be defined"⟩

/-- A pod whose command holds a percent sign. -/
def datePod : Pod :=
  { ObjectMeta := { Name := "date-pod", Namespace := "default", Labels := [] }
    Spec :=
      { Containers :=
          [ { Name := "busybox"
              Image := "busybox"
              ImagePullPolicy := ""
              Command := ["sh", "-c", "date +%s"] } ] } }

/-- What `json.MarshalIndent` with a four-blank indent gives for the pod of
`getPodObject`. -/
def myTestPodJSON : String :=
  String.join [
    "\x7b\n",
    "    \"metadata\": \x7b\n",
    "        \"name\": \"my-test-pod\",\n",
    "        \"namespace\": \"default\",\n",
    "        \"creationTimestamp\": null,\n",
    "        \"labels\": \x7b\n",
    "            \"app\": \"demo\"\n",
    "        \x7d\n",
    "    \x7d,\n",
    "    \"spec\": \x7b\n",
    "        \"containers\": [\n",
    "            \x7b\n",
    "                \"name\": \"busybox\",\n",
    "                \"image\": \"busybox\",\n",
    "                \"command\": [\n",
    "                    \"sleep\",\n",
    "                    \"3600\"\n",
    "                ],\n",
    "                \"resources\": \x7b\x7d,\n",
    "                \"imagePullPolicy\": \"IfNotPresent\"\n",
    "            \x7d\n",
    "        ]\n",
    "    \x7d,\n",
    "    \"status\": \x7b\x7d\n",
    "\x7d"]

/-- What `json.MarshalIndent` with a four-blank indent gives for `datePod`. -/
def datePodJSON : String :=
  String.join [
    "\x7b\n",
    "    \"metadata\": \x7b\n",
    "        \"name\": \"date-pod\",\n",
    "        \"namespace\": \"default\",\n",
    "        \"creationTimestamp\": null\n",
    "    \x7d,\n",
    "    \"spec\": \x7b\n",
    "        \"containers\": [\n",
    "            \x7b\n",
    "                \"name\": \"busybox\",\n",
    "                \"image\": \"busybox\",\n",
    "                \"command\": [\n",
    "                    \"sh\",\n",
    "                    \"-c\",\n",
    "                    \"date +%s\"\n",
    "                ],\n",
    "                \"resources\": \x7b\x7d\n",
    "            \x7d\n",
    "        ]\n",
    "    \x7d,\n",
    "    \"status\": \x7b\x7d\n",
    "\x7d"]

/-- The text `datePodJSON` after `fmt.Printf` took it for a format. -/
def datePodPrinted : String :=
  String.join [
    "\x7b\n",
    "    \"metadata\": \x7b\n",
    "        \"name\": \"date-pod\",\n",
    "        \"namespace\": \"default\",\n",
    "        \"creationTimestamp\": null\n",
    "    \x7d,\n",
    "    \"spec\": \x7b\n",
    "        \"containers\": [\n",
    "            \x7b\n",
    "                \"name\": \"busybox\",\n",
    "                \"image\": \"busybox\",\n",
    "                \"command\": [\n",
    "                    \"sh\",\n",
    "                    \"-c\",\n",
    "                    \"date +%!s(MISSING)\"\n",
    "                ],\n",
    "                \"resources\": \x7b\x7d\n",
    "            \x7d\n",
    "        ]\n",
    "    \x7d,\n",
    "    \"status\": \x7b\x7d\n",
    "\x7d"]

/-- A pod value that encodes to the given JSON text.  `PrettyString` never
asks for `plusV` on such a value; the worlds below give it cut down to the
name. -/
def jsonValue (js plusV : String) : PodValue :=
  { marshalIndent := fun _ _ => .ok js, plusV := plusV }

/-- A run inside a cluster: the configuration is found in the environment,
the create call answers with the pod it was given, and the list call with
that one pod. -/
def inClusterWorld : World String String :=
  { InClusterConfig := .ok "in-cluster"
    Getenv := fun key => if key = "HOME" then "/root" else ""
    BuildConfigFromFlags := fun _ path => .error ⟨"stat " ++ path ++ ": no such file or directory"⟩
    NewForConfig := fun config => .ok ("clientset for " ++ config)
    Create := fun _ _ pod => (pod, none)
    List := fun _ _ _ => ({ Items := [getPodObject] }, none)
    podValue := fun _ =>
      jsonValue myTestPodJSON "\x7bObjectMeta:\x7bName:my-test-pod Namespace:default\x7d\x7d" }

/-- A run outside a cluster with no kubeconfig file under `/root`. -/
def noConfigWorld : World String String :=
  { inClusterWorld with InClusterConfig := .error ErrNotInCluster }

/-- A run outside a cluster with a kubeconfig file at `/root/.kube/config`. -/
def kubeconfigWorld : World String String :=
  { noConfigWorld with
    BuildConfigFromFlags := fun _ path =>
      if path = "/root/.kube/config" then .ok "kubeconfig"
      else .error ⟨"stat " ++ path ++ ": no such file or directory"⟩ }

/-- A run outside a cluster with `HOME` empty. -/
def emptyHomeWorld : World String String :=
  { noConfigWorld with Getenv := fun _ => "" }

/-- A run outside a cluster with `HOME` ending in a separator. -/
def slashHomeWorld : World String String :=
  { noConfigWorld with Getenv := fun key => if key = "HOME" then "/root/" else "" }

/-- A run inside a cluster in which the pod exists already: the create call
fails, and the list call shows the pod. -/
def createFailsWorld : World String String :=
  { inClusterWorld with
    Create := fun _ _ _ => (Pod.zero, some ⟨"pods \"my-test-pod\" already exists"⟩) }

/-- A run inside a cluster whose namespace holds `datePod`. -/
def percentWorld : World String String :=
  { inClusterWorld with
    List := fun _ _ _ => ({ Items := [datePod] }, none)
    podValue := fun _ =>
      jsonValue datePodJSON "\x7bObjectMeta:\x7bName:date-pod Namespace:default\x7d\x7d" }

/-- A value of a type whose `MarshalJSON` fails and whose `String` method
returns the empty string, such as
`type T struct{}` with `func (T) MarshalJSON() ([]byte, error)` returning an
error and `func (T) String() string` returning `""`. -/
def silentValue : GoValue :=
  { marshalIndent := fun _ _ =>
      .returns (.error ⟨"json: error calling MarshalJSON for type main.T: no"⟩)
    plusV := .returns "" }

/-- A value of a type whose `MarshalJSON` panics, such as `type P struct{}`
with `func (P) MarshalJSON() ([]byte, error) { panic("no") }`. -/
def panickingValue : GoValue :=
  { marshalIndent := fun _ _ => .panics ⟨"no"⟩
    plusV := .returns "\x7b\x7d" }

/-- The path that a trace hands to the kubeconfig loader, event by event. -/
def Event.loaderPath {Cfg : Type} : Event Cfg → Option String
  | .buildConfigFromFlags _ path => some path
  | _ => none

/-- The world `w` with every create call reporting success (same result pod). -/
def World.createErrorDropped {Cfg Cs : Type} (w : World Cfg Cs) : World Cfg Cs :=
  { w with Create := fun cs ns pod => ((w.Create cs ns pod).1, none) }

/-! ## Lemmas on the formatting loop -/

theorem parsenumLoop_length (s : List Char) (n : Nat) (b : Bool) :
    (parsenumLoop s n b).2.2.length ≤ s.length := by
  induction s generalizing n b with
  | nil => simp [parsenumLoop]
  | cons c cs ih =>
    unfold parsenumLoop
    split_ifs
    · simp
    · exact Nat.le_succ_of_le (ih _ _)
    · simp

theorem argNumber_rest_length (n : Nat) (s : List Char) (k : Nat) (g r : Bool) :
    (argNumber n s k g r).rest.length ≤ s.length := by
  unfold argNumber
  split
  · split
    split_ifs <;> simp
  · simp

theorem scanFlags_noArg (cs : List Char) (f0 : FmtFlags) :
    ∃ f rest, scanFlags false cs f0 = .slow f rest ∧ rest.length ≤ cs.length := by
  induction cs generalizing f0 with
  | nil => exact ⟨f0, [], rfl, le_refl _⟩
  | cons c cs ih =>
    unfold scanFlags
    split_ifs
    all_goals first
      | (obtain ⟨f, rest, h, hl⟩ := ih _; exact ⟨f, rest, h, Nat.le_succ_of_le hl⟩)
      | exact ⟨f0, c :: cs, rfl, le_refl _⟩
      | simp_all


theorem intFromArg_nil (n : Nat) : intFromArg [] n = some n := rfl

theorem parseWidth_noArg (f : FmtFlags) (a : ArgNum) :
    ∃ o f1 a1 b, parseWidth f a [] = some (o, f1, a1, b) ∧ a1.rest.length ≤ a.rest.length := by
  unfold parseWidth
  split
  · rename_i s1 h
    refine ⟨_, _, _, _, rfl, ?_⟩
    simp [h]
  · exact ⟨_, _, _, _, rfl, parsenumLoop_length _ _ _⟩

theorem precisionAfterDot_noArg (f : FmtFlags) (b : ArgNum) :
    ∃ o f1 a1 c, precisionAfterDot f b [] = some (o, f1, a1, c)
      ∧ a1.rest.length ≤ b.rest.length := by
  unfold precisionAfterDot
  split
  · rename_i s1 h
    refine ⟨_, _, _, _, rfl, ?_⟩
    simp [h]
  · exact ⟨_, _, _, _, rfl, parsenumLoop_length _ _ _⟩

theorem parsePrecision_noArg (f : FmtFlags) (a : ArgNum) (after : Bool) :
    ∃ o f1 a1 b, parsePrecision f a after [] = some (o, f1, a1, b)
      ∧ a1.rest.length ≤ a.rest.length := by
  unfold parsePrecision
  split
  · rename_i s1 h
    obtain ⟨o, f1, a1, c, hc, hl⟩ := precisionAfterDot_noArg f
      (argNumber a.argNum s1 ([] : List FmtArg).length (a.good && !after) a.reordered)
    refine ⟨o, f1, a1, c, hc, ?_⟩
    have hb := argNumber_rest_length a.argNum s1 ([] : List FmtArg).length
      (a.good && !after) a.reordered
    simp only [h, List.length_cons]
    omega
  · exact ⟨_, _, _, _, rfl, le_refl _⟩


theorem applyVerb_noArg (out : List Char) (f : FmtFlags) (a : ArgNum) :
    ∃ st, applyVerb out f a [] = some st ∧ st.rest.length ≤ a.rest.length := by
  unfold applyVerb
  split
  · exact ⟨_, rfl, Nat.zero_le _⟩
  · rename_i verb s4 h
    split_ifs
    · exact ⟨_, rfl, by simp [h]⟩
    · exact ⟨_, rfl, by simp [h]⟩
    · exact ⟨_, rfl, by simp [h]⟩

theorem slowVerb_noArg (f : FmtFlags) (s : List Char) (n : Nat) (r : Bool) :
    ∃ st, slowVerb f s [] n r = some st ∧ st.rest.length ≤ s.length := by
  unfold slowVerb
  have h0 := argNumber_rest_length n s ([] : List FmtArg).length true r
  obtain ⟨o1, f1, a1, b1, hw, hl1⟩ := parseWidth_noArg f (argNumber n s ([] : List FmtArg).length true r)
  obtain ⟨o2, f2, a2, b2, hp, hl2⟩ := parsePrecision_noArg f1 a1 b1
  have h3 := argNumber_rest_length a2.argNum a2.rest ([] : List FmtArg).length a2.good a2.reordered
  simp only [hw, hp, Option.bind_eq_bind, Option.some_bind, bind, pure]
  obtain ⟨st, hst, hl⟩ := applyVerb_noArg (o1 ++ o2) f2
    (if b2 = true then a2 else argNumber a2.argNum a2.rest ([] : List FmtArg).length a2.good a2.reordered)
  refine ⟨st, hst, ?_⟩
  split_ifs at hl <;> omega

theorem finish_nil (n : Nat) (r : Bool) : finish [] n r = some [] := by
  simp [finish]

theorem formatLoop_noArg (fuel : Nat) (s : List Char) (n : Nat) (r : Bool)
    (h : s.length < fuel) : ∃ t, formatLoop fuel s [] n r = some t := by
  induction fuel generalizing s n r with
  | zero => omega
  | succ fuel ih =>
    cases s with
    | nil => exact ⟨[], by simp [formatLoop, finish_nil]⟩
    | cons c cs =>
      simp only [List.length_cons] at h
      unfold formatLoop
      split_ifs with hc
      · obtain ⟨t, ht⟩ := ih cs n r (by omega)
        exact ⟨c :: t, by simp [ht]⟩
      · obtain ⟨f, rest, hs, hl⟩ := scanFlags_noArg cs FmtFlags.clear
        have hd : decide (n < ([] : List FmtArg).length) = false := by simp
        rw [hd, hs]
        obtain ⟨st, hst, hl2⟩ := slowVerb_noArg f rest n r
        obtain ⟨t, ht⟩ := ih st.rest st.argNum st.reordered (by omega)
        simp only [hst, Option.bind_eq_bind, Option.some_bind, bind, pure, finish_nil, ht]
        split_ifs
        · exact ⟨_, rfl⟩
        · exact ⟨_, rfl⟩

/-- With no operands `doPrintf` always produces a text. -/
theorem doPrintf_noArg_isSome (s : String) : ∃ t, doPrintf s [] = some t := by
  obtain ⟨t, ht⟩ := formatLoop_noArg (s.length + 1) s.toList 0 false (Nat.lt_succ_self _)
  exact ⟨String.mk t, by rw [doPrintf, ht]; rfl⟩

theorem formatLoop_noPercent (fuel : Nat) (s : List Char) (n : Nat) (r : Bool)
    (h : s.length < fuel) (hp : '%' ∉ s) : formatLoop fuel s [] n r = some s := by
  induction fuel generalizing s with
  | zero => omega
  | succ fuel ih =>
    cases s with
    | nil => simp [formatLoop, finish_nil]
    | cons c cs =>
      simp only [List.length_cons] at h
      simp only [List.mem_cons, not_or] at hp
      unfold formatLoop
      rw [if_pos (fun hc => hp.1 hc.symm), ih cs (by omega) hp.2]
      rfl

/-- A format without a percent sign and without operands is written as it is. -/
theorem doPrintf_noPercent (s : String) (hp : '%' ∉ s.toList) : doPrintf s [] = some s := by
  rw [doPrintf, formatLoop_noPercent (s.length + 1) s.toList 0 false (Nat.lt_succ_self _) hp]
  rfl

/-! ## The formats used by the program -/

theorem doPrintf_unableConfig (e : GoError) :
    doPrintf "Unable to create config. Error: %+v" [.err e]
      = some ("Unable to create config. Error: " ++ e.Error) := by
  have h : doPrintf "Unable to create config. Error: %+v" [.err e]
      = some (String.mk ("Unable to create config. Error: ".toList ++ (e.Error.toList ++ []))) := rfl
  rw [h]; congr 1; apply String.ext; simp

set_option maxRecDepth 100000 in
theorem doPrintf_bothFailed (e1 e2 : GoError) :
    doPrintf
      "InClusterConfig as well as BuildConfigFromFlags Failed. Error in InClusterConfig: %+v\nError in BuildConfigFromFlags: %+v"
      [.err e1, .err e2]
      = some ("InClusterConfig as well as BuildConfigFromFlags Failed. Error in InClusterConfig: "
          ++ e1.Error ++ "\nError in BuildConfigFromFlags: " ++ e2.Error) := by
  have h : doPrintf
      "InClusterConfig as well as BuildConfigFromFlags Failed. Error in InClusterConfig: %+v\nError in BuildConfigFromFlags: %+v"
      [.err e1, .err e2]
      = some (String.mk
          ("InClusterConfig as well as BuildConfigFromFlags Failed. Error in InClusterConfig: ".toList
            ++ (e1.Error.toList ++ ("\nError in BuildConfigFromFlags: ".toList
            ++ (e2.Error.toList ++ []))))) := rfl
  rw [h]; congr 1; apply String.ext; simp

section ConfigLemmas

variable {Cfg Cs : Type}

theorem GetClientConfig_inCluster (w : World Cfg Cs) (c : Cfg) (h : w.InClusterConfig = .ok c) :
    GetClientConfig w = some (.ok c, [Event.inClusterConfig]) := by
  simp [GetClientConfig, h, call, bind, Prog.bind, pure]

theorem GetClientConfig_bothFail (w : World Cfg Cs) (e1 e2 : GoError)
    (h1 : w.InClusterConfig = .error e1)
    (h2 : w.BuildConfigFromFlags "" (filepathJoin [w.Getenv "HOME", ".kube", "config"]) = .error e2) :
    GetClientConfig w = some (.error ⟨"InClusterConfig as well as BuildConfigFromFlags Failed. Error in InClusterConfig: "
          ++ e1.Error ++ "\nError in BuildConfigFromFlags: " ++ e2.Error⟩,
      [Event.inClusterConfig, Event.stdout ("Unable to create config. Error: " ++ e1.Error),
       Event.getenv "HOME",
       Event.buildConfigFromFlags "" (filepathJoin [w.Getenv "HOME", ".kube", "config"])]) := by
  simp [GetClientConfig, h1, h2, call, bind, Prog.bind, pure, Printf, lift, Errorf,
    doPrintf_unableConfig, doPrintf_bothFailed]

end ConfigLemmas

/-! ## Lemmas on `PrettyString` and the listing loop -/

theorem doPrintf_unableMarshal (e : GoError) :
    doPrintf "Unable to marshal, Error: %+v" [.err e]
      = some ("Unable to marshal, Error: " ++ e.Error) := by
  have h : doPrintf "Unable to marshal, Error: %+v" [.err e]
      = some (String.mk ("Unable to marshal, Error: ".toList ++ (e.Error.toList ++ []))) := rfl
  rw [h]; congr 1; apply String.ext; simp

theorem doPrintf_unableMarshalLine (e : GoError) :
    doPrintf "Unable to marshal, Error: %+v\n" [.err e]
      = some ("Unable to marshal, Error: " ++ e.Error ++ "\n") := by
  have h : doPrintf "Unable to marshal, Error: %+v\n" [.err e]
      = some (String.mk ("Unable to marshal, Error: ".toList ++ (e.Error.toList ++ ['\n']))) := rfl
  rw [h]; congr 1

theorem doPrintf_failedClientset (e : GoError) :
    doPrintf "Failed creating clientset. Error: %+v" [.err e]
      = some ("Failed creating clientset. Error: " ++ e.Error) := by
  have h : doPrintf "Failed creating clientset. Error: %+v" [.err e]
      = some (String.mk ("Failed creating clientset. Error: ".toList ++ (e.Error.toList ++ []))) := rfl
  rw [h]; congr 1; apply String.ext; simp

theorem doPrintf_plusV (plusV : String) : doPrintf "%+v" [.val plusV] = some plusV := by
  have h : doPrintf "%+v" [.val plusV] = some (String.mk (plusV.toList ++ [])) := rfl
  exact h.trans (by simp)

theorem doPrintf_cannotCreate : doPrintf "cannot create pod" [] = some "cannot create pod" := by
  decide

theorem doPrintln_nil : doPrintln [] = some "\n" := rfl

theorem doPrintln_one (a : String) : doPrintln [.str a] = some (a ++ "\n") := rfl

theorem doPrintln_two (a b : String) :
    doPrintln [.str a, .str b] = some (a ++ " " ++ (b ++ "\n")) := rfl

theorem doPrintln_three (a b c : String) :
    doPrintln [.str a, .str b, .str c] = some (a ++ " " ++ (b ++ " " ++ (c ++ "\n"))) := rfl

section ProgramLemmas

variable {Cfg Cs : Type}

theorem PrettyString_ok (v : GoValue) (js : String)
    (h : v.marshalIndent "" "    " = .returns (.ok js)) :
    (PrettyString v : Prog (Event Cfg) (Outcome String)) = some (.returns js, []) := by
  simp [PrettyString, h, pure]

theorem PrettyString_panics (v : GoValue) (p : GoError)
    (h : v.marshalIndent "" "    " = .panics p) :
    (PrettyString v : Prog (Event Cfg) (Outcome String)) = some (.panics p, []) := by
  simp [PrettyString, h, pure]

theorem PrettyString_error (v : GoValue) (e : GoError) (txt : String)
    (h : v.marshalIndent "" "    " = .returns (.error e)) (ht : v.plusV = .returns txt) :
    (PrettyString v : Prog (Event Cfg) (Outcome String)) = some (.returns txt,
      [Event.stdout ("Unable to marshal, Error: " ++ ("Unable to marshal, Error: " ++ e.Error)
        ++ "\n")]) := by
  simp [PrettyString, h, ht, bind, Prog.bind, pure, lift, Errorf, Printf, Sprintf,
    doPrintf_unableMarshal, doPrintf_unableMarshalLine, doPrintf_plusV]

theorem PrettyString_error_panics (v : GoValue) (e p : GoError)
    (h : v.marshalIndent "" "    " = .returns (.error e)) (ht : v.plusV = .panics p) :
    (PrettyString v : Prog (Event Cfg) (Outcome String)) = some (.panics p,
      [Event.stdout ("Unable to marshal, Error: " ++ ("Unable to marshal, Error: " ++ e.Error)
        ++ "\n")]) := by
  simp [PrettyString, h, ht, bind, Prog.bind, pure, lift, Errorf, Printf,
    doPrintf_unableMarshal, doPrintf_unableMarshalLine]

/-- For a pod value `PrettyString` returns, and all it does is write. -/
theorem PrettyString_pod (v : PodValue) :
    ∃ s tr, (PrettyString v.toGoValue : Prog (Event Cfg) (Outcome String))
        = some (.returns s, tr)
      ∧ ∀ e ∈ tr, Event.isStdout e = true := by
  cases h : v.marshalIndent "" "    " with
  | ok js =>
    exact ⟨js, [], PrettyString_ok v.toGoValue js (by simp [PodValue.toGoValue, h]), by simp⟩
  | error e =>
    exact ⟨_, _, PrettyString_error v.toGoValue e v.plusV (by simp [PodValue.toGoValue, h]) rfl,
      by simp [Event.isStdout]⟩

theorem printPods_total (w : World Cfg Cs) (pods : List Pod) :
    ∃ tr, printPods w pods = some (.returns (), tr) ∧ ∀ e ∈ tr, Event.isStdout e = true := by
  induction pods with
  | nil => exact ⟨[], rfl, by simp⟩
  | cons pod rest ih =>
    obtain ⟨tr, htr, hall⟩ := ih
    obtain ⟨s, t1, hs, h1⟩ := @PrettyString_pod Cfg (w.podValue pod)
    obtain ⟨txt, htxt⟩ := doPrintf_noArg_isSome s
    simp only [printPods, bind, Prog.bind, Println, Printf, doPrintln_two, doPrintln_nil,
      doPrintln_one, hs, htxt, htr, Option.map_some']
    refine ⟨_, rfl, ?_⟩
    · intro e he
      simp only [List.mem_append, List.mem_cons, List.mem_singleton, List.not_mem_nil,
        or_false] at he
      rcases he with he | he | he | he | he | he
      all_goals first
        | (subst he; rfl)
        | exact h1 e he
        | exact hall e he

end ProgramLemmas

/-! ## Lemmas on `GetClientset` and `main` -/

section MainLemmas

variable {Cfg Cs : Type}

theorem GetClientConfig_fallback (w : World Cfg Cs) (e1 : GoError) (c : Cfg)
    (h1 : w.InClusterConfig = .error e1)
    (h2 : w.BuildConfigFromFlags "" (filepathJoin [w.Getenv "HOME", ".kube", "config"]) = .ok c) :
    GetClientConfig w = some (.ok c,
      [Event.inClusterConfig, Event.stdout ("Unable to create config. Error: " ++ e1.Error),
       Event.getenv "HOME",
       Event.buildConfigFromFlags "" (filepathJoin [w.Getenv "HOME", ".kube", "config"])]) := by
  simp [GetClientConfig, h1, h2, call, bind, Prog.bind, pure, Printf, doPrintf_unableConfig]

theorem GetClientConfig_total (w : World Cfg Cs) :
    ∃ r tr, GetClientConfig w = some (r, tr) ∧ tr.filter Event.isClusterCall = [] := by
  cases h1 : w.InClusterConfig with
  | ok c => exact ⟨_, _, GetClientConfig_inCluster w c h1, rfl⟩
  | error e1 =>
    cases h2 : w.BuildConfigFromFlags "" (filepathJoin [w.Getenv "HOME", ".kube", "config"]) with
    | ok c => exact ⟨_, _, GetClientConfig_fallback w e1 c h1 h2, rfl⟩
    | error e2 => exact ⟨_, _, GetClientConfig_bothFail w e1 e2 h1 h2, rfl⟩

theorem GetClientset_total (w : World Cfg Cs) :
    ∃ r tr, GetClientset w = some (r, tr) ∧ tr.filter Event.isClusterCall = [] := by
  obtain ⟨r, t0, h0, hf⟩ := GetClientConfig_total w
  cases r with
  | error e =>
    refine ⟨.error e, t0, ?_, hf⟩
    simp [GetClientset, h0, bind, Prog.bind, pure]
  | ok c =>
    cases h3 : w.NewForConfig c with
    | ok cs =>
      refine ⟨.ok cs, t0 ++ [Event.newForConfig c], ?_, ?_⟩
      · simp [GetClientset, h0, h3, bind, Prog.bind, pure, call]
      · simp [List.filter_append, hf, Event.isClusterCall]
    | error e =>
      refine ⟨.error ⟨"Failed creating clientset. Error: " ++ e.Error⟩,
        t0 ++ [Event.newForConfig c], ?_, ?_⟩
      · simp [GetClientset, h0, h3, bind, Prog.bind, pure, call, lift, Errorf,
          doPrintf_failedClientset]
      · simp [List.filter_append, hf, Event.isClusterCall]

theorem main_spec (w : World Cfg Cs) (cs : Cs) (t0 : List (Event Cfg))
    (hcs : GetClientset w = some (.ok cs, t0)) :
    ∃ tr, printPods w (w.List cs "default" ListOptions.zero).1.Items = some (.returns (), tr)
      ∧ main w = some (Exit.returned,
        t0 ++ ([Event.create "default" getPodObject,
          Event.stdout ("Pod " ++ " " ++ ((w.Create cs "default" getPodObject).1.Name ++ " "
            ++ ("created successfully..." ++ "\n"))),
          Event.stdout "Listing pods..\n",
          Event.list "default" ListOptions.zero] ++ (tr ++ [Event.stdout "Pods listed\n"]))) := by
  obtain ⟨tr, htr, -⟩ := printPods_total w (w.List cs "default" ListOptions.zero).1.Items
  refine ⟨tr, htr, ?_⟩
  have hns : getPodObject.Namespace = "default" := rfl
  cases hc : w.Create cs "default" getPodObject with
  | mk pod err =>
    cases hl : w.List cs "default" ListOptions.zero with
    | mk pods lerr =>
      rw [hl] at htr
      cases err with
      | none =>
        simp [main, hcs, hns, hc, hl, htr, bind, Prog.bind, pure, call, Println, doPrintln_three,
          doPrintln_one]
      | some e =>
        simp [main, hcs, hns, hc, hl, htr, bind, Prog.bind, pure, call, Println, doPrintln_three,
          doPrintln_one, lift, Errorf, doPrintf_cannotCreate]

end MainLemmas

/-! ## Lemmas on `filepath.Clean` and `filepath.Join` -/

theorem takeWhile_name (n tail : List Char) (hn : '/' ∉ n)
    (ht : tail = [] ∨ ∃ t, tail = '/' :: t) :
    (n ++ tail).takeWhile (· ≠ '/') = n ∧ (n ++ tail).dropWhile (· ≠ '/') = tail := by
  induction n with
  | nil =>
    rcases ht with ht | ⟨t, ht⟩ <;> subst ht <;> simp
  | cons c cs ih =>
    simp only [List.mem_cons, not_or] at hn
    have hc : c ≠ '/' := fun h => hn.1 h.symm
    obtain ⟨h1, h2⟩ := ih hn.2
    have hp : decide (c ≠ '/') = true := by simpa using hc
    constructor
    · rw [List.cons_append, List.takeWhile_cons, hp, if_pos rfl, h1]
    · rw [List.cons_append, List.dropWhile_cons, hp, if_pos rfl, h2]

theorem cleanLoop_name (fuel : Nat) (n tail out : List Char) (hn : isName n = true)
    (ht : tail = [] ∨ ∃ t, tail = '/' :: t) :
    cleanLoop true (fuel + 1) (n ++ tail) out 1
      = cleanLoop true fuel tail (n.reverse ++ (if out.length ≠ 1 then '/' :: out else out)) 1 := by
  simp only [isName, decide_eq_true_eq] at hn
  obtain ⟨hne, hsl, hdot, hdd⟩ := hn
  obtain ⟨htk, hdr⟩ := takeWhile_name n tail hsl ht
  cases n with
  | nil => exact absurd rfl hne
  | cons c n1 =>
    simp only [List.mem_cons, not_or] at hsl
    have hc : c ≠ '/' := fun h => hsl.1 h.symm
    have h2 : ¬ (c = '.' ∧ (n1 ++ tail = [] ∨ (n1 ++ tail).head? = some '/')) := by
      rintro ⟨rfl, h⟩
      cases n1 with
      | nil => exact hdot rfl
      | cons d n2 =>
        simp only [List.mem_cons, not_or] at hsl
        rcases h with h | h
        · simp at h
        · simp at h; exact hsl.2.1 h.symm
    have h3 : ¬ (c = '.' ∧ (n1 ++ tail).head? = some '.' ∧
        ((n1 ++ tail).tail = [] ∨ (n1 ++ tail).tail.head? = some '/')) := by
      rintro ⟨rfl, h, h'⟩
      cases n1 with
      | nil =>
        rcases ht with ht | ⟨t, ht⟩ <;> subst ht <;> simp at h
      | cons d n2 =>
        simp at h
        subst h
        cases n2 with
        | nil => exact hdd rfl
        | cons e n3 =>
          simp only [List.mem_cons, not_or] at hsl
          rcases h' with h' | h'
          · simp at h'
          · simp at h'; exact hsl.2.2.1 h'.symm
    have hdef : cleanLoop true (fuel + 1) (c :: (n1 ++ tail)) out 1
        = cleanLoop true fuel ((c :: (n1 ++ tail)).dropWhile (· ≠ '/'))
            (((c :: (n1 ++ tail)).takeWhile (· ≠ '/')).reverse
              ++ (if out.length ≠ 1 then '/' :: out else out)) 1 := by
      rw [cleanLoop]
      rw [if_neg hc, if_neg h2, if_neg h3]
      simp
    rw [List.cons_append, hdef]
    rw [← List.cons_append, htk, hdr]

theorem cleanLoop_names (names : List (List Char)) (hnames : ∀ n ∈ names, isName n = true)
    (hne : names ≠ []) (fuel : Nat) (out : List Char)
    (hfuel : (joinNames names).length < fuel) :
    cleanLoop true fuel (joinNames names) out 1
      = (joinNames names).reverse ++ (if out.length ≠ 1 then '/' :: out else out) := by
  induction names generalizing fuel out with
  | nil => exact absurd rfl hne
  | cons n rest ih =>
    have hn : isName n = true := hnames n (List.mem_cons_self _ _)
    cases rest with
    | nil =>
      cases fuel with
      | zero => omega
      | succ fuel =>
        have := cleanLoop_name fuel n [] out hn (Or.inl rfl)
        simp only [List.append_nil] at this
        simp only [joinNames, this]
        cases fuel <;> simp [cleanLoop]
    | cons m rest =>
      simp only [joinNames, List.length_append, List.length_cons] at hfuel
      cases fuel with
      | zero => omega
      | succ fuel =>
        cases fuel with
        | zero => omega
        | succ fuel =>
          have h1 := cleanLoop_name (fuel + 1) n ('/' :: joinNames (m :: rest)) out hn
            (Or.inr ⟨_, rfl⟩)
          have hn0 : n ≠ [] := by
            simp only [isName, decide_eq_true_eq] at hn
            exact hn.1
          have hpos : 0 < n.length := List.length_pos.mpr hn0
          have hlen : (n.reverse ++ (if out.length ≠ 1 then '/' :: out else out)).length ≠ 1 := by
            have h2 : 0 < (if out.length ≠ 1 then '/' :: out else out).length := by
              split_ifs with h
              · simp
              · have : out.length = 1 := by omega
                omega
            simp only [List.length_append, List.length_reverse]
            omega
          have ih' := ih (fun x hx => hnames x (List.mem_cons_of_mem _ hx)) (by simp) fuel
            (n.reverse ++ (if out.length ≠ 1 then '/' :: out else out)) (by omega)
          rw [if_pos hlen] at ih'
          simp only [joinNames]
          rw [h1, cleanLoop, if_pos rfl, ih']
          simp

theorem joinNames_append_two (names : List (List Char)) (hne : names ≠ []) (a b : List Char) :
    joinNames (names ++ [a, b]) = joinNames names ++ ('/' :: a ++ '/' :: b) := by
  induction names with
  | nil => exact absurd rfl hne
  | cons n rest ih =>
    cases rest with
    | nil => simp [joinNames]
    | cons m rest =>
      have := ih (by simp)
      simp only [List.cons_append] at this ⊢
      simp only [joinNames, this]
      simp

theorem filepathClean_rooted (names : List (List Char)) (hnames : ∀ n ∈ names, isName n = true)
    (hne : names ≠ []) :
    filepathClean (String.mk ('/' :: joinNames names)) = String.mk ('/' :: joinNames names) := by
  have hnz : (String.mk ('/' :: joinNames names)) ≠ "" := by
    intro h
    have := congrArg String.data h
    simp at this
  have hloop := cleanLoop_names names hnames hne ((joinNames names).length + 1 + 1) ['/']
    (by omega)
  simp only [filepathClean, if_neg hnz, String.toList, List.head?_cons, List.tail_cons,
    List.length_cons, if_true, hloop]
  simp

theorem filepathJoin_rooted (names : List (List Char)) (hnames : ∀ n ∈ names, isName n = true)
    (hne : names ≠ []) :
    filepathJoin [rootedPath names, ".kube", "config"] = rootedPath names ++ "/.kube/config" := by
  have hnz : rootedPath names ≠ "" := by
    intro h
    have := congrArg String.data h
    simp [rootedPath] at this
  have hjoin : stringsJoin [rootedPath names, ".kube", "config"] "/"
      = String.mk ('/' :: joinNames (names ++ [".kube".toList, "config".toList])) := by
    apply String.ext
    rw [joinNames_append_two names hne]
    simp [stringsJoin, String.intercalate, String.intercalate.go, rootedPath]
  have hall : ∀ n ∈ names ++ [".kube".toList, "config".toList], isName n = true := by
    intro n hn
    rcases List.mem_append.mp hn with h | h
    · exact hnames n h
    · simp only [List.mem_cons, List.mem_singleton, List.not_mem_nil, or_false] at h
      rcases h with h | h <;> subst h <;> decide
  rw [filepathJoin, if_pos hnz, hjoin, filepathClean_rooted _ hall (by simp)]
  apply String.ext
  rw [joinNames_append_two names hne]
  simp [rootedPath]

/-! ## Rounds of the listing loop that print the JSON as it is -/

/-- The separator line is eighty stars. -/
theorem stringsRepeat_star : (stringsRepeat "*" 80).toList = List.replicate 80 '*' := by
  decide

section Blocks

variable {Cfg Cs : Type}

/-- One round of the listing loop for a pod whose indented JSON holds no
percent sign: the name line, the JSON text as it is, an empty line, the
separator line. -/
theorem printPods_cons_verbatim (w : World Cfg Cs) (pod : Pod) (rest : List Pod) (js : String)
    (tr : List (Event Cfg)) (hjs : (w.podValue pod).marshalIndent "" "    " = .ok js)
    (hp : '%' ∉ js.toList) (hrest : printPods w rest = some (.returns (), tr)) :
    printPods w (pod :: rest) = some (.returns (),
      [Event.stdout ("Pod Name: " ++ " " ++ (pod.Name ++ "\n")), Event.stdout js,
       Event.stdout "\n", Event.stdout (stringsRepeat "*" 80 ++ "\n")] ++ tr) := by
  simp only [printPods, bind, Prog.bind, Println, Printf, doPrintln_two, doPrintln_nil,
    doPrintln_one, PrettyString_ok (w.podValue pod).toGoValue js (by simp [PodValue.toGoValue, hjs]),
    doPrintf_noPercent js hp, hrest, Option.map_some']
  rfl

end Blocks

/-! ## The trace of `main` -/

theorem stdoutOf_append {Cfg : Type} (a b : List (Event Cfg)) :
    stdoutOf (a ++ b) = stdoutOf a ++ stdoutOf b := by
  induction a with
  | nil => simp [stdoutOf]
  | cons e t ih => cases e <;> simp [stdoutOf, ih, String.append_assoc]

theorem filter_isClusterCall_of_isStdout {Cfg : Type} (tr : List (Event Cfg))
    (h : ∀ e ∈ tr, Event.isStdout e = true) : tr.filter Event.isClusterCall = [] := by
  rw [List.filter_eq_nil_iff]
  intro e he
  have := h e he
  cases e <;> simp_all [Event.isStdout, Event.isClusterCall]

section MainTrace

variable {Cfg Cs : Type}

/-- The whole trace of `main` once the clientset is there: the requests to the
cluster are the create request and then the list request, and the last thing
written is the line `Pods listed`. -/
theorem main_trace (w : World Cfg Cs) (cs : Cs) (t0 : List (Event Cfg))
    (hcs : GetClientset w = some (.ok cs, t0)) :
    ∃ tr, main w = some (Exit.returned, tr)
      ∧ tr.filter Event.isClusterCall
          = [Event.create "default" getPodObject, Event.list "default" ListOptions.zero]
      ∧ ∃ out, stdoutOf tr = out ++ "Pods listed\n" := by
  obtain ⟨r, t0', h0, hf0⟩ := GetClientset_total w
  rw [hcs] at h0
  obtain ⟨-, rfl⟩ : r = .ok cs ∧ t0' = t0 := by
    have h0' := Prod.mk.inj (Option.some.inj h0)
    exact ⟨h0'.1.symm, h0'.2.symm⟩
  obtain ⟨tr, htr, hall⟩ := printPods_total w (w.List cs "default" ListOptions.zero).1.Items
  obtain ⟨tr', htr', hmain⟩ := main_spec w cs t0' hcs
  rw [htr] at htr'
  obtain rfl : tr = tr' := (Prod.mk.inj (Option.some.inj htr')).2
  refine ⟨_, hmain, ?_, ?_⟩
  · simp [List.filter_append, hf0, filter_isClusterCall_of_isStdout tr hall, Event.isClusterCall,
      List.filter_cons]
  · refine ⟨stdoutOf (t0' ++ ([Event.create "default" getPodObject,
        Event.stdout ("Pod " ++ " " ++ ((w.Create cs "default" getPodObject).1.Name ++ " "
          ++ ("created successfully..." ++ "\n"))),
        Event.stdout "Listing pods..\n",
        Event.list "default" ListOptions.zero] ++ tr)), ?_⟩
    rw [← List.append_assoc, ← List.append_assoc, stdoutOf_append, List.append_assoc]
    rfl

end MainTrace

theorem filepathJoin_empty_home : filepathJoin ["", ".kube", "config"] = ".kube/config" := by
  decide

section Extra

variable {Cfg Cs : Type}

theorem printPods_createErrorDropped (w : World Cfg Cs) (pods : List Pod) :
    printPods w.createErrorDropped pods = printPods w pods := by
  induction pods with
  | nil => rfl
  | cons pod rest ih =>
    simp only [printPods, ih]
    rfl

/-- Whether the create call fails or not makes no difference to what a run of
`main` does: same exit, same requests, same output. -/
theorem main_createErrorDropped (w : World Cfg Cs) :
    main w.createErrorDropped = main w := by
  have hg : GetClientset w.createErrorDropped = GetClientset w := rfl
  obtain ⟨r, t0, h0, -⟩ := GetClientset_total w
  cases r with
  | error e => simp [main, hg, h0, bind, Prog.bind, pure]
  | ok cs =>
    obtain ⟨tr, htr, hmain⟩ := main_spec w cs t0 h0
    obtain ⟨tr', htr', hmain'⟩ := main_spec w.createErrorDropped cs t0 (hg.trans h0)
    rw [printPods_createErrorDropped] at htr'
    have hl : w.createErrorDropped.List = w.List := rfl
    rw [hl, htr] at htr'
    obtain rfl : tr = tr' := (Prod.mk.inj (Option.some.inj htr')).2
    rw [hmain, hmain']
    rfl

end Extra

/-! ## The claims -/

section Claims

variable {Cfg Cs : Type}

/-- C1: when in-cluster discovery fails with `e1` and loading the kubeconfig
file fails with `e2`, `GetClientConfig` returns no configuration and one error
whose message holds the text of `e1` and, after it, the text of `e2`. -/
theorem GetClientConfig_both_fail_message (w : World Cfg Cs) (e1 e2 : GoError)
    (h1 : w.InClusterConfig = .error e1)
    (h2 : w.BuildConfigFromFlags "" (filepathJoin [w.Getenv "HOME", ".kube", "config"])
      = .error e2) :
    ∃ tr, GetClientConfig w = some (.error ⟨
      "InClusterConfig as well as BuildConfigFromFlags Failed. Error in InClusterConfig: "
        ++ e1.Error ++ "\nError in BuildConfigFromFlags: " ++ e2.Error⟩, tr) :=
  ⟨_, GetClientConfig_bothFail w e1 e2 h1 h2⟩

/-- C1 at `noConfigWorld`: not in a cluster and no file under `/root`. -/
theorem GetClientConfig_both_fail_message_witness :
    noConfigWorld.InClusterConfig = .error ErrNotInCluster
    ∧ noConfigWorld.BuildConfigFromFlags ""
        (filepathJoin [noConfigWorld.Getenv "HOME", ".kube", "config"])
      = .error ⟨"stat /root/.kube/config: no such file or directory"⟩
    ∧ ∃ tr, GetClientConfig noConfigWorld = some (.error ⟨
      "InClusterConfig as well as BuildConfigFromFlags Failed. Error in InClusterConfig: "
        ++ ErrNotInCluster.Error ++ "\nError in BuildConfigFromFlags: "
        ++ "stat /root/.kube/config: no such file or directory"⟩, tr) :=
  ⟨rfl, rfl, GetClientConfig_both_fail_message noConfigWorld ErrNotInCluster
    ⟨"stat /root/.kube/config: no such file or directory"⟩ rfl rfl⟩

/-- C2: when in-cluster discovery succeeds with `c`, `GetClientConfig` returns
`c` and a nil error, and the in-cluster discovery is all it does: `HOME` is
not read, the kubeconfig loader is not called, nothing is printed. -/
theorem GetClientConfig_in_cluster_only (w : World Cfg Cs) (c : Cfg)
    (h : w.InClusterConfig = .ok c) :
    GetClientConfig w = some (.ok c, [Event.inClusterConfig]) :=
  GetClientConfig_inCluster w c h

/-- C2 at `inClusterWorld`. -/
theorem GetClientConfig_in_cluster_only_witness :
    inClusterWorld.InClusterConfig = .ok "in-cluster"
    ∧ GetClientConfig inClusterWorld = some (.ok "in-cluster", [Event.inClusterConfig]) :=
  ⟨rfl, GetClientConfig_in_cluster_only inClusterWorld "in-cluster" rfl⟩

/-- C3: when in-cluster discovery fails and loading the kubeconfig file
succeeds with `c`, `GetClientConfig` returns exactly `c` and a nil error; the
in-cluster failure is printed, not returned. -/
theorem GetClientConfig_fallback_config (w : World Cfg Cs) (e1 : GoError) (c : Cfg)
    (h1 : w.InClusterConfig = .error e1)
    (h2 : w.BuildConfigFromFlags "" (filepathJoin [w.Getenv "HOME", ".kube", "config"]) = .ok c) :
    GetClientConfig w = some (.ok c,
      [Event.inClusterConfig, Event.stdout ("Unable to create config. Error: " ++ e1.Error),
       Event.getenv "HOME",
       Event.buildConfigFromFlags "" (filepathJoin [w.Getenv "HOME", ".kube", "config"])]) :=
  GetClientConfig_fallback w e1 c h1 h2

/-- C3 at `kubeconfigWorld`: not in a cluster, a file at `/root/.kube/config`. -/
theorem GetClientConfig_fallback_config_witness :
    kubeconfigWorld.InClusterConfig = .error ErrNotInCluster
    ∧ kubeconfigWorld.BuildConfigFromFlags ""
        (filepathJoin [kubeconfigWorld.Getenv "HOME", ".kube", "config"]) = .ok "kubeconfig"
    ∧ GetClientConfig kubeconfigWorld = some (.ok "kubeconfig",
      [Event.inClusterConfig,
       Event.stdout ("Unable to create config. Error: " ++ ErrNotInCluster.Error),
       Event.getenv "HOME",
       Event.buildConfigFromFlags ""
         (filepathJoin [kubeconfigWorld.Getenv "HOME", ".kube", "config"])]) :=
  ⟨rfl, rfl, GetClientConfig_fallback_config kubeconfigWorld ErrNotInCluster "kubeconfig" rfl rfl⟩

/-- C4: in a run of `main` in which the clientset is obtained and the create
call returns a failure, the run returns normally (no panic), the list request
is issued after the create request, and the output ends with the line
`Pods listed`. -/
theorem main_lists_after_create_failure (w : World Cfg Cs) (cs : Cs) (t0 : List (Event Cfg))
    (e : GoError) (hcs : GetClientset w = some (.ok cs, t0))
    (_hfail : (w.Create cs getPodObject.Namespace getPodObject).2 = some e) :
    ∃ tr, main w = some (Exit.returned, tr)
      ∧ tr.filter Event.isClusterCall
          = [Event.create "default" getPodObject, Event.list "default" ListOptions.zero]
      ∧ ∃ out, stdoutOf tr = out ++ "Pods listed\n" :=
  main_trace w cs t0 hcs

/-- C4 at `createFailsWorld`: the pod exists already. -/
theorem main_lists_after_create_failure_witness :
    GetClientset createFailsWorld = some (.ok "clientset for in-cluster",
      [Event.inClusterConfig, Event.newForConfig "in-cluster"])
    ∧ (createFailsWorld.Create "clientset for in-cluster" getPodObject.Namespace getPodObject).2
      = some ⟨"pods \"my-test-pod\" already exists"⟩
    ∧ ∃ tr, main createFailsWorld = some (Exit.returned, tr)
      ∧ tr.filter Event.isClusterCall
          = [Event.create "default" getPodObject, Event.list "default" ListOptions.zero]
      ∧ ∃ out, stdoutOf tr = out ++ "Pods listed\n" :=
  ⟨rfl, rfl, main_lists_after_create_failure createFailsWorld "clientset for in-cluster" _
    ⟨"pods \"my-test-pod\" already exists"⟩ rfl rfl⟩

end Claims

section Claims2

variable {Cfg Cs : Type}

set_option maxRecDepth 100000 in
/-- C5: the run of `main` at `createFailsWorld`, where the create call fails.
Between the create request and the list request the program writes the line
`Pod   created successfully...` and the line `Listing pods..`; no message
about the failed creation is written anywhere: the error built by
`fmt.Errorf("cannot create pod")` is dropped. -/
theorem main_create_failure_not_reported :
    main createFailsWorld = some (Exit.returned,
      [Event.inClusterConfig,
       Event.newForConfig "in-cluster",
       Event.create "default" getPodObject,
       Event.stdout "Pod   created successfully...\n",
       Event.stdout "Listing pods..\n",
       Event.list "default" ListOptions.zero,
       Event.stdout "Pod Name:  my-test-pod\n",
       Event.stdout myTestPodJSON,
       Event.stdout "\n",
       Event.stdout (stringsRepeat "*" 80 ++ "\n"),
       Event.stdout "Pods listed\n"]) := by
  rfl

set_option maxRecDepth 100000 in
/-- C6: the run of `main` at `percentWorld`, where the list call returns
`datePod`.  `PrettyString` gives the JSON text `datePodJSON`, but what is
written is `datePodPrinted`: `fmt.Printf` takes the text for a format, and
`%s` in it becomes `%!s(MISSING)`. -/
theorem main_block_not_verbatim :
    (PrettyString (percentWorld.podValue datePod).toGoValue
        : Prog (Event String) (Outcome String))
      = some (.returns datePodJSON, [])
    ∧ main percentWorld = some (Exit.returned,
      [Event.inClusterConfig,
       Event.newForConfig "in-cluster",
       Event.create "default" getPodObject,
       Event.stdout "Pod  my-test-pod created successfully...\n",
       Event.stdout "Listing pods..\n",
       Event.list "default" ListOptions.zero,
       Event.stdout "Pod Name:  date-pod\n",
       Event.stdout datePodPrinted,
       Event.stdout "\n",
       Event.stdout (stringsRepeat "*" 80 ++ "\n"),
       Event.stdout "Pods listed\n"])
    ∧ datePodPrinted ≠ datePodJSON := by
  refine ⟨rfl, rfl, by decide⟩

/-- C7: in a run of `main` in which the clientset is obtained, the requests to
the cluster are, in this order, the create request, which carries the
descriptor of `getPodObject` and goes to that descriptor's namespace, and the
list request, which goes to namespace `default`; the two namespaces are
equal. -/
theorem main_requests (w : World Cfg Cs) (cs : Cs) (t0 : List (Event Cfg))
    (hcs : GetClientset w = some (.ok cs, t0)) :
    ∃ tr, main w = some (Exit.returned, tr)
      ∧ tr.filter Event.isClusterCall
          = [Event.create getPodObject.Namespace getPodObject,
             Event.list "default" ListOptions.zero]
      ∧ getPodObject.Namespace = "default" := by
  obtain ⟨tr, hmain, hcalls, -⟩ := main_trace w cs t0 hcs
  exact ⟨tr, hmain, hcalls, rfl⟩

/-- C7 at `inClusterWorld`. -/
theorem main_requests_witness :
    GetClientset inClusterWorld = some (.ok "clientset for in-cluster",
      [Event.inClusterConfig, Event.newForConfig "in-cluster"])
    ∧ ∃ tr, main inClusterWorld = some (Exit.returned, tr)
      ∧ tr.filter Event.isClusterCall
          = [Event.create getPodObject.Namespace getPodObject,
             Event.list "default" ListOptions.zero]
      ∧ getPodObject.Namespace = "default" :=
  ⟨rfl, main_requests inClusterWorld "clientset for in-cluster" _ rfl⟩

/-- C8: `getPodObject` has no parameter and is one fixed descriptor: name
`my-test-pod`, namespace `default`, the single label `app` -> `demo`, and the
single container `busybox` with image `busybox`, pull policy `IfNotPresent`
and command `sleep`, `3600` in this order. -/
theorem getPodObject_descriptor :
    getPodObject.Name = "my-test-pod"
    ∧ getPodObject.Namespace = "default"
    ∧ getPodObject.ObjectMeta.Labels = [("app", "demo")]
    ∧ getPodObject.Spec.Containers
        = [{ Name := "busybox", Image := "busybox", ImagePullPolicy := PullIfNotPresent,
             Command := ["sleep", "3600"] }]
    ∧ PullIfNotPresent = "IfNotPresent" := by
  decide

/-- C9, as the claim states it, fails in two ways.  At `silentValue` the
serialization fails and the string returned is empty.  At `panickingValue`
the call of `json.MarshalIndent` panics and `PrettyString` returns nothing:
the panic goes on to its caller. -/
theorem PrettyString_empty_text_or_panic :
    (silentValue.marshalIndent "" "    "
        = .returns (.error ⟨"json: error calling MarshalJSON for type main.T: no"⟩)
      ∧ (PrettyString silentValue : Prog (Event String) (Outcome String))
        = some (.returns "",
          [Event.stdout ("Unable to marshal, Error: Unable to marshal, Error: "
            ++ "json: error calling MarshalJSON for type main.T: no\n")]))
    ∧ (panickingValue.marshalIndent "" "    " = .panics ⟨"no"⟩
      ∧ (PrettyString panickingValue : Prog (Event String) (Outcome String))
        = some (.panics ⟨"no"⟩, [])) := by
  exact ⟨⟨rfl, rfl⟩, ⟨rfl, rfl⟩⟩

/-- C9, amended: what `PrettyString` does for every input value.  When
`json.MarshalIndent` returns the serialization, `PrettyString` returns exactly
that text and writes nothing.  When it returns an error, `PrettyString` writes
one line of diagnosis and returns the `%+v` form of the value, whatever that
is, the empty string included.  It never returns an error.  It returns a
string in all cases but these: the call of `json.MarshalIndent` panics, or
the serialization fails and printing the value under `%+v` panics; the panic
then goes on to the caller (in the second case after the line of diagnosis). -/
theorem PrettyString_result (v : GoValue) :
    (PrettyString v : Prog (Event Cfg) (Outcome String))
      = match v.marshalIndent "" "    " with
        | .returns (.ok jsonStr) => some (.returns jsonStr, [])
        | .returns (.error err) =>
          match v.plusV with
          | .returns plusV => some (.returns plusV,
              [Event.stdout ("Unable to marshal, Error: "
                ++ ("Unable to marshal, Error: " ++ err.Error) ++ "\n")])
          | .panics p => some (.panics p,
              [Event.stdout ("Unable to marshal, Error: "
                ++ ("Unable to marshal, Error: " ++ err.Error) ++ "\n")])
        | .panics p => some (.panics p, []) := by
  cases h : v.marshalIndent "" "    " with
  | panics p => exact PrettyString_panics v p h
  | returns r =>
    cases r with
    | ok js => exact PrettyString_ok v js h
    | error e =>
      cases ht : v.plusV with
      | returns txt => exact PrettyString_error v e txt h ht
      | panics p => exact PrettyString_error_panics v e p h ht

end Claims2

section Claims3

variable {Cfg Cs : Type}

set_option maxRecDepth 100000 in
/-- C10, as the claim states it, fails for an empty `HOME` and for a `HOME`
that ends in a separator: the loader is handed `.kube/config`, not
`/.kube/config`, and `/root/.kube/config`, not `/root//.kube/config`. -/
theorem GetClientConfig_loader_path_cleaned :
    (emptyHomeWorld.Getenv "HOME" = ""
      ∧ (GetClientConfig emptyHomeWorld).map (fun r => r.2.filterMap Event.loaderPath)
          = some [".kube/config"]
      ∧ ".kube/config" ≠ emptyHomeWorld.Getenv "HOME" ++ "/.kube/config")
    ∧ (slashHomeWorld.Getenv "HOME" = "/root/"
      ∧ (GetClientConfig slashHomeWorld).map (fun r => r.2.filterMap Event.loaderPath)
          = some ["/root/.kube/config"]
      ∧ "/root/.kube/config" ≠ slashHomeWorld.Getenv "HOME" ++ "/.kube/config") := by
  refine ⟨⟨rfl, rfl, by decide⟩, ⟨rfl, rfl, by decide⟩⟩

/-- C10, amended: when in-cluster discovery fails, the one path handed to the
kubeconfig loader is `filepath.Join(h, ".kube", "config")` for the value `h`
of `HOME`.  That is `.kube/config` when `h` is empty, and `h` followed by
`/.kube/config` when `h` is a clean rooted path `/n1/.../nk` (one name or
more, none of them empty, `.` or `..`). -/
theorem GetClientConfig_loader_path (w : World Cfg Cs) (e1 : GoError)
    (h1 : w.InClusterConfig = .error e1) :
    (∃ r tr, GetClientConfig w = some (r, tr)
      ∧ tr.filterMap Event.loaderPath = [filepathJoin [w.Getenv "HOME", ".kube", "config"]])
    ∧ (w.Getenv "HOME" = ""
        → filepathJoin [w.Getenv "HOME", ".kube", "config"] = ".kube/config")
    ∧ (∀ names : List (List Char), names ≠ [] → (∀ n ∈ names, isName n = true)
        → w.Getenv "HOME" = rootedPath names
        → filepathJoin [w.Getenv "HOME", ".kube", "config"]
            = w.Getenv "HOME" ++ "/.kube/config") := by
  refine ⟨?_, ?_, ?_⟩
  · cases h2 : w.BuildConfigFromFlags "" (filepathJoin [w.Getenv "HOME", ".kube", "config"]) with
    | ok c => exact ⟨_, _, GetClientConfig_fallback w e1 c h1 h2, rfl⟩
    | error e2 => exact ⟨_, _, GetClientConfig_bothFail w e1 e2 h1 h2, rfl⟩
  · intro h
    rw [h]
    exact filepathJoin_empty_home
  · intro names hne hnames h
    rw [h]
    exact filepathJoin_rooted names hnames hne

/-- C10, amended, at `noConfigWorld`, where `HOME` is `/root`: the loader is
handed `/root/.kube/config`. -/
theorem GetClientConfig_loader_path_witness :
    noConfigWorld.InClusterConfig = .error ErrNotInCluster
    ∧ (∃ r tr, GetClientConfig noConfigWorld = some (r, tr)
        ∧ tr.filterMap Event.loaderPath = ["/root/.kube/config"])
    ∧ noConfigWorld.Getenv "HOME" = rootedPath ["root".toList]
    ∧ filepathJoin [noConfigWorld.Getenv "HOME", ".kube", "config"]
        = noConfigWorld.Getenv "HOME" ++ "/.kube/config" :=
  ⟨rfl, (GetClientConfig_loader_path noConfigWorld ErrNotInCluster rfl).1, rfl,
    (GetClientConfig_loader_path noConfigWorld ErrNotInCluster rfl).2.2 ["root".toList]
      (by decide) (by decide) rfl⟩

end Claims3

end Pods
